import Mathlib

/-!
Shallow embedding of the queue/worker core of the `audio_ai_processor`
module (`models/audio_task.py` and `services/whisper_service.py`).

The task record store is modelled as a `List Task`; the store's ordered
read (`search` with `order='create_date asc'`, ties resolved by id, the
store being an external collaborator with a deterministic ordered-read
contract) is modelled by `pickEarliest`.  Configuration parameters
(`ir.config_parameter`) are modelled by a `Config` record holding the
already-resolved values.  The wall clock's current hour is passed as an
explicit argument.  Side effects that touch no task field
(`message_post`, logging, cron `_trigger`) are dropped; raising a
`UserError` before any write is modelled by returning the unchanged task
together with the error message.
-/

namespace AudioAI

/-- The five task states of the `state` selection field. -/
inductive TaskState where
  | draft
  | pending
  | transcribing
  | done
  | error
deriving DecidableEq

/-- Processing mode configuration value (`processing_mode`). -/
inductive ProcessingMode where
  | immediate
  | scheduled
deriving DecidableEq

/-- One `audio.task` record.  Binary fields are carried as `Option String`
contents; `create_date` is an abstract timestamp; `transcription_time`
an abstract duration (the float is modelled as a natural number of
time units). -/
structure Task where
  id : Nat
  state : TaskState
  audio_file : Option String
  audio_filename : Option String
  transcription : Option String
  transcription_time : Nat
  result_file : Option String
  result_filename : Option String
  error_message : Option String
  create_date : Nat
deriving DecidableEq

/-- Resolved configuration parameters of the module. -/
structure Config where
  openai_api_key : Option String
  processing_mode : ProcessingMode
  scheduled_hour_from : Nat
  scheduled_hour_to : Nat
deriving DecidableEq

/-- Lower-casing of a string, as Python `str.lower` on ASCII input. -/
def strLower (s : String) : String := String.mk (s.data.map Char.toLower)

/-- `isPrefixList p s` holds when `p` is a prefix of `s`. -/
def isPrefixList : List Char → List Char → Bool
  | [], _ => true
  | _ :: _, [] => false
  | a :: p, b :: s => a == b && isPrefixList p s

/-- `containsSeq p s`: `p` occurs as a contiguous subsequence of `s`
(Python's `in` on strings). -/
def containsSeq (p : List Char) : List Char → Bool
  | [] => isPrefixList p []
  | b :: s => isPrefixList p (b :: s) || containsSeq p s

/-- `strContains s pat`: Python `pat in s`. -/
def strContains (s pat : String) : Bool := containsSeq pat.toList s.toList

/-- `strEndsWith s post`: Python `s.endswith(post)`. -/
def strEndsWith (s post : String) : Bool :=
  isPrefixList post.toList.reverse s.toList.reverse

/-! ### `services/whisper_service.py` -/

/-- `WhisperService.MIME_TYPES`: the fixed extension → MIME mapping. -/
def MIME_TYPES : List (String × String) :=
  [("mp3", "audio/mpeg"), ("wav", "audio/wav"), ("webm", "audio/webm"),
   ("m4a", "audio/mp4"), ("ogg", "audio/ogg"), ("flac", "audio/flac")]

/-- Python `filename.lower().rsplit('.', 1)[-1]`: the part of the
lower-cased filename after the last dot (the whole lowered name when it
has no dot), computed as the longest dot-free suffix. -/
def lastExt (filename : String) : String :=
  String.mk (((strLower filename).data.reverse.takeWhile (fun c => c ≠ '.')).reverse)

/-- `WhisperService._get_mime_type`. -/
def get_mime_type (filename : String) : String :=
  (MIME_TYPES.lookup (lastExt filename)).getD "audio/mpeg"

/-! ### Validation and synchronous actions of `audio.task` -/

/-- `_validate_audio_file`'s tuple of accepted extensions. -/
def valid_extensions : List String := [".mp3", ".wav", ".m4a", ".ogg", ".flac"]

/-- The message raised by `_validate_audio_file` on a bad extension. -/
def invalidFormatMessage : String :=
  "Invalid audio format. Supported: " ++ String.intercalate ", " valid_extensions

/-- `_validate_audio_file`: `some msg` is a raised `UserError`, `none`
is a successful validation. -/
def validate_audio_file (t : Task) : Option String :=
  match t.audio_file with
  | none => some "Please upload an audio file first."
  | some _ =>
    match t.audio_filename with
    | none => some "Audio filename is missing."
    | some fn =>
      if valid_extensions.any (fun e => strEndsWith (strLower fn) e) then none
      else some invalidFormatMessage

/-- `action_add_to_queue`: validate, check the API key, then write
`state='pending', error_message=False`.  A raised `UserError` is
modelled as the unchanged task paired with `some message`. -/
def action_add_to_queue (cfg : Config) (t : Task) : Task × Option String :=
  match validate_audio_file t with
  | some m => (t, some m)
  | none =>
    match cfg.openai_api_key with
    | none => (t, some "Please configure OpenAI API key in Settings.")
    | some _ => ({ t with state := .pending, error_message := none }, none)

/-- `action_reset`: back to draft, clearing every result field. -/
def action_reset (t : Task) : Task :=
  { t with
    state := .draft
    transcription := none
    transcription_time := 0
    result_file := none
    result_filename := none
    error_message := none }

/-- `action_cancel_queue`: pending goes back to draft, anything else is
untouched. -/
def action_cancel_queue (t : Task) : Task :=
  if t.state = .pending then { t with state := .draft } else t

/-- `_set_error`: write `state='error'` with the message. -/
def set_error (t : Task) (message : String) : Task :=
  { t with state := .error, error_message := some message }

/-! ### Dispatcher (`_cron_process_queue` and helpers) -/

/-- `_is_processing_allowed`, as a function of the configuration and the
current hour (`datetime.now().hour`). -/
def is_processing_allowed (cfg : Config) (hour : Nat) : Bool :=
  match cfg.processing_mode with
  | .immediate => true
  | .scheduled =>
    if cfg.scheduled_hour_from ≤ cfg.scheduled_hour_to then
      decide (cfg.scheduled_hour_from ≤ hour ∧ hour < cfg.scheduled_hour_to)
    else
      decide (hour ≥ cfg.scheduled_hour_from) || decide (hour < cfg.scheduled_hour_to)

/-- `_has_active_transcription`: `search_count([('state','=','transcribing')]) > 0`. -/
def has_active_transcription (store : List Task) : Bool :=
  store.any (fun t => t.state = .transcribing)

/-- Strict lexicographic order on `(create_date, id)`: the sort key of
the store's `order='create_date asc'` read, ties resolved by id. -/
def keyLt (a b : Task) : Bool :=
  a.create_date < b.create_date || (a.create_date = b.create_date && a.id < b.id)

/-- The store's ordered read: the task minimal for `keyLt` (the first
row of `search(..., order='create_date asc', limit=1)`). -/
def pickEarliest : List Task → Option Task
  | [] => none
  | t :: ts =>
    match pickEarliest ts with
    | none => some t
    | some m => if keyLt m t then some m else some t

/-- The pending tasks of the store, in store order. -/
def pendingList (store : List Task) : List Task :=
  store.filter (fun t => t.state = .pending)

/-- The `search([('state','=','pending')], order='create_date asc', limit=1)`
of `_cron_process_queue`. -/
def selectNextPending (store : List Task) : Option Task :=
  pickEarliest (pendingList store)

/-- `_process_transcription` on one task: with no API key configured the
task is moved to error and no thread starts; otherwise the task enters
`transcribing` and the background thread is spawned (second component). -/
def process_transcription (cfg : Config) (t : Task) : Task × Bool :=
  match cfg.openai_api_key with
  | none => (set_error t "OpenAI API key not configured.", false)
  | some _ => ({ t with state := .transcribing }, true)

/-- `_cron_process_queue`: gate on the processing window, then on the
single-flight check, then start the earliest pending task. -/
def cron_process_queue (cfg : Config) (hour : Nat) (store : List Task) : List Task :=
  if ¬ is_processing_allowed cfg hour then store
  else if has_active_transcription store then store
  else
    match selectNextPending store with
    | none => store
    | some t => store.map (fun u => if u.id = t.id then (process_transcription cfg u).1 else u)

/-! ### Job executor outcome persistence (`_save_transcription`, `_save_error`) -/

/-- `MAX_RETRIES` from `audio_task.py`. -/
def MAX_RETRIES : Nat := 3

/-- `RETRY_DELAY` (0.5 s) from `audio_task.py`, in milliseconds. -/
def RETRY_DELAY_MS : Nat := 500

/-- The write-conflict marker `_save_transcription` looks for in the
exception text. -/
def serializeMarker : String := "could not serialize"

/-- Outcome of `_save_transcription`: the sleeps performed (in ms), the
final result (`Except`ion or success), and the number of attempts made
against the storage layer. -/
structure SaveOutcome where
  sleeps : List Nat
  result : Except String Unit
  attempts : Nat

/-- The retry loop of `_save_transcription`, the storage layer abstracted
as an oracle giving each attempt's outcome.  An attempt failing with a
message containing `serializeMarker` is retried (after sleeping
`RETRY_DELAY * (attempt + 1)`) while attempts remain; any other failure,
or a conflict on the final attempt, re-raises. -/
def saveAttempts (oracle : Nat → Except String Unit) (attempt : Nat) : SaveOutcome :=
  if _h : attempt < MAX_RETRIES then
    match oracle attempt with
    | .ok () => ⟨[], .ok (), 1⟩
    | .error e =>
      if strContains e serializeMarker ∧ attempt < MAX_RETRIES - 1 then
        let rest := saveAttempts oracle (attempt + 1)
        ⟨RETRY_DELAY_MS * (attempt + 1) :: rest.sleeps, rest.result, rest.attempts + 1⟩
      else ⟨[], .error e, 1⟩
  else ⟨[], .ok (), 0⟩
termination_by MAX_RETRIES - attempt

/-- `_save_transcription`'s control flow over the storage oracle. -/
def save_transcription (oracle : Nat → Except String Unit) : SaveOutcome :=
  saveAttempts oracle 0

/-- `_save_error`'s control flow: a single storage attempt inside a
`try/except` that swallows any failure (no retry, no re-raise).  Returns
the number of attempts and whether the error state was saved. -/
def save_error_attempt (oracle : Nat → Except String Unit) : Nat × Bool :=
  (1, match oracle 0 with
      | .ok () => true
      | .error _ => false)

/-- The fields written by `_save_transcription` on the task record when
the save succeeds.  The binary `result_file` (base64 of the UTF-8
transcript) is carried abstractly as the transcript it encodes. -/
def save_transcription_fields (t : Task) (text : String) (elapsed : Nat) : Task :=
  { t with
    state := .done
    transcription := some text
    transcription_time := elapsed
    result_file := some text
    result_filename := some ("transcription_" ++ toString t.id ++ ".txt") }

/-- The fields written by `_save_error` on the task record. -/
def save_error_fields (t : Task) (message : String) : Task :=
  { t with state := .error, error_message := some message }

/-! ### Serialized dispatch rounds (for the FIFO property) -/

/-- Completion of the in-flight job: the executor persists a Done
outcome for every transcribing task (there is at most one).  Used to
model the serialized cycle-then-complete rounds of the FIFO property. -/
def completeAll (store : List Task) : List Task :=
  store.map (fun t => if t.state = .transcribing then { t with state := .done } else t)

/-- The task a dispatch cycle starts (moves into `transcribing`), if
any: gates open, an API key configured, and a pending task selected. -/
def startedNow (cfg : Config) (hour : Nat) (store : List Task) : Option Task :=
  if is_processing_allowed cfg hour ∧ ¬ has_active_transcription store
      ∧ cfg.openai_api_key.isSome then
    selectNextPending store
  else none

/-- One serialized round: a dispatch cycle followed by completion of the
started job. -/
def round (cfg : Config) (hour : Nat) (store : List Task) : List Task :=
  completeAll (cron_process_queue cfg hour store)

/-- The tasks started over `n` serialized rounds, in start order. -/
def dispatchSeq (cfg : Config) (hour : Nat) : Nat → List Task → List Task
  | 0, _ => []
  | n + 1, store =>
    match startedNow cfg hour store with
    | some t => t :: dispatchSeq cfg hour n (round cfg hour store)
    | none => dispatchSeq cfg hour n (round cfg hour store)

/-- Number of tasks of the store in state `transcribing`. -/
def countTranscribing (store : List Task) : Nat :=
  store.countP (fun t => t.state = .transcribing)

/-- The spec's field/state coupling: result fields present iff `done`,
error message present iff `error`. -/
def fieldsInvariant (t : Task) : Prop :=
  (t.transcription.isSome ↔ t.state = .done) ∧
  (t.result_file.isSome ↔ t.state = .done) ∧
  (t.result_filename.isSome ↔ t.state = .done) ∧
  (t.error_message.isSome ↔ t.state = .error)

instance (t : Task) : Decidable (fieldsInvariant t) := by
  unfold fieldsInvariant
  infer_instance

/-! ## Theorems -/

/-- C9: `action_reset` sets the task to draft, clears transcription,
transcription time, result file, result filename and error message, and
is idempotent: resetting twice equals resetting once. -/
theorem C9_reset_idempotent (t : Task) :
    (action_reset t).state = .draft ∧
    (action_reset t).transcription = none ∧
    (action_reset t).transcription_time = 0 ∧
    (action_reset t).result_file = none ∧
    (action_reset t).result_filename = none ∧
    (action_reset t).error_message = none ∧
    action_reset (action_reset t) = action_reset t :=
  ⟨rfl, rfl, rfl, rfl, rfl, rfl, rfl⟩

/-- C10: the MIME type sent to the provider is determined by the
lower-cased final extension through the fixed mapping, defaulting to
`audio/mpeg` outside the mapping. -/
theorem C10_mime_mapping (filename : String) :
    get_mime_type filename =
      (if lastExt filename = "mp3" then "audio/mpeg"
       else if lastExt filename = "wav" then "audio/wav"
       else if lastExt filename = "webm" then "audio/webm"
       else if lastExt filename = "m4a" then "audio/mp4"
       else if lastExt filename = "ogg" then "audio/ogg"
       else if lastExt filename = "flac" then "audio/flac"
       else "audio/mpeg") := by
  simp only [get_mime_type, MIME_TYPES, List.lookup]
  repeat' split
  all_goals simp_all [beq_iff_eq, beq_eq_false_iff_ne]

/-- C2 counterexample: the claim asserts the window check is true for
every hour when `hourFrom = hourTo`; the code's same-day branch
`hourFrom <= hour < hourTo` is empty there, so at
`mode = Scheduled, hourFrom = hourTo = 5, hour = 9` it is false. -/
theorem C2_boundary_counterexample :
    is_processing_allowed ⟨none, .scheduled, 5, 5⟩ 9 = false := by decide

/-- C2 (amended): the processing-window check is a pure predicate of
(hour, mode, hourFrom, hourTo): always true in Immediate mode; in
Scheduled mode with `hourFrom ≤ hourTo` true iff
`hourFrom ≤ hour < hourTo`; with `hourFrom > hourTo` true iff
`hour ≥ hourFrom` or `hour < hourTo`; and in the boundary case
`hourFrom = hourTo` false for every hour (degenerate empty window). -/
theorem C2_window_policy (cfg : Config) (hour : Nat) :
    (cfg.processing_mode = .immediate → is_processing_allowed cfg hour = true) ∧
    (cfg.processing_mode = .scheduled →
      cfg.scheduled_hour_from ≤ cfg.scheduled_hour_to →
      (is_processing_allowed cfg hour = true ↔
        cfg.scheduled_hour_from ≤ hour ∧ hour < cfg.scheduled_hour_to)) ∧
    (cfg.processing_mode = .scheduled →
      cfg.scheduled_hour_from > cfg.scheduled_hour_to →
      (is_processing_allowed cfg hour = true ↔
        hour ≥ cfg.scheduled_hour_from ∨ hour < cfg.scheduled_hour_to)) ∧
    (cfg.processing_mode = .scheduled →
      cfg.scheduled_hour_from = cfg.scheduled_hour_to →
      is_processing_allowed cfg hour = false) := by
  refine ⟨fun hm => ?_, fun hm hle => ?_, fun hm hgt => ?_, fun hm heq => ?_⟩ <;>
    simp only [is_processing_allowed, hm] <;> split_ifs <;> simp <;> omega

/-- Witness for C2: the amended theorem applied at concrete inputs. -/
theorem C2_window_policy_witness :
    is_processing_allowed ⟨none, .immediate, 22, 6⟩ 3 = true ∧
    is_processing_allowed ⟨none, .scheduled, 9, 17⟩ 10 = true ∧
    is_processing_allowed ⟨none, .scheduled, 22, 6⟩ 23 = true ∧
    is_processing_allowed ⟨none, .scheduled, 7, 7⟩ 12 = false := by
  refine ⟨(C2_window_policy ⟨none, .immediate, 22, 6⟩ 3).1 rfl, ?_, ?_,
    (C2_window_policy ⟨none, .scheduled, 7, 7⟩ 12).2.2.2 rfl rfl⟩
  · exact ((C2_window_policy ⟨none, .scheduled, 9, 17⟩ 10).2.1 rfl (by decide)).2
      (by decide)
  · exact ((C2_window_policy ⟨none, .scheduled, 22, 6⟩ 23).2.2.1 rfl (by decide)).2
      (by decide)

/-- C8: with no API key configured at dispatch time,
`_process_transcription` moves the task to Error with message
"OpenAI API key not configured.", starts no background thread, and the
task never enters Transcribing. -/
theorem C8_dispatch_missing_key (cfg : Config) (t : Task)
    (hk : cfg.openai_api_key = none) :
    (process_transcription cfg t).1.state = .error ∧
    (process_transcription cfg t).1.error_message =
      some "OpenAI API key not configured." ∧
    (process_transcription cfg t).2 = false ∧
    (process_transcription cfg t).1.state ≠ .transcribing := by
  simp [process_transcription, hk, set_error]

/-- Witness for C8 at a concrete pending task and key-less config. -/
theorem C8_dispatch_missing_key_witness :
    (process_transcription ⟨none, .immediate, 22, 6⟩
        ⟨1, .pending, some "d", some "a.mp3", none, 0, none, none, none, 0⟩).1.state
      = .error ∧
    (process_transcription ⟨none, .immediate, 22, 6⟩
        ⟨1, .pending, some "d", some "a.mp3", none, 0, none, none, none, 0⟩).2
      = false :=
  ⟨(C8_dispatch_missing_key ⟨none, .immediate, 22, 6⟩
      ⟨1, .pending, some "d", some "a.mp3", none, 0, none, none, none, 0⟩ rfl).1,
   (C8_dispatch_missing_key ⟨none, .immediate, 22, 6⟩
      ⟨1, .pending, some "d", some "a.mp3", none, 0, none, none, none, 0⟩ rfl).2.2.1⟩

/-- C7: `action_add_to_queue` has no guard on the current state: for any
task passing validation with a configured key it sets state to Pending
and clears `error_message`, leaving transcription, transcription time,
result file and result filename unchanged. -/
theorem C7_enqueue_no_state_guard (cfg : Config) (t : Task) (k : String)
    (hk : cfg.openai_api_key = some k) (hv : validate_audio_file t = none) :
    action_add_to_queue cfg t =
      ({ t with state := .pending, error_message := none }, none) ∧
    (action_add_to_queue cfg t).1.state = .pending ∧
    (action_add_to_queue cfg t).1.error_message = none ∧
    (action_add_to_queue cfg t).1.transcription = t.transcription ∧
    (action_add_to_queue cfg t).1.transcription_time = t.transcription_time ∧
    (action_add_to_queue cfg t).1.result_file = t.result_file ∧
    (action_add_to_queue cfg t).1.result_filename = t.result_filename := by
  simp [action_add_to_queue, hv, hk]

/-- Witness for C7: a Done task with results and an Error task both get
re-enqueued. -/
theorem C7_enqueue_no_state_guard_witness :
    (action_add_to_queue ⟨some "k", .scheduled, 22, 6⟩
        ⟨3, .done, some "d", some "a.mp3", some "txt", 9, some "txt",
          some "transcription_3.txt", none, 5⟩).1.state = .pending ∧
    (action_add_to_queue ⟨some "k", .scheduled, 22, 6⟩
        ⟨3, .done, some "d", some "a.mp3", some "txt", 9, some "txt",
          some "transcription_3.txt", none, 5⟩).1.transcription = some "txt" ∧
    (action_add_to_queue ⟨some "k", .scheduled, 22, 6⟩
        ⟨4, .error, some "d", some "B.WAV", none, 0, none, none,
          some "boom", 5⟩).1.error_message = none := by
  have h3 := C7_enqueue_no_state_guard ⟨some "k", .scheduled, 22, 6⟩
    ⟨3, .done, some "d", some "a.mp3", some "txt", 9, some "txt",
      some "transcription_3.txt", none, 5⟩ "k" rfl (by decide)
  have h4 := C7_enqueue_no_state_guard ⟨some "k", .scheduled, 22, 6⟩
    ⟨4, .error, some "d", some "B.WAV", none, 0, none, none, some "boom", 5⟩
    "k" rfl (by decide)
  refine ⟨h3.2.1, ?_, h4.2.2.1⟩
  rw [h3.2.2.2.1]

/-- C5: enqueue fails synchronously, leaving every task field unchanged
(hence a Draft task stays Draft), when the payload is missing, the
filename is missing, the extension is unsupported (case-insensitively
against .mp3/.wav/.m4a/.ogg/.flac), or the API key is unconfigured; the
unsupported-extension message enumerates the supported extensions. -/
theorem C5_enqueue_validation (cfg : Config) (t : Task) :
    (t.audio_file = none →
      action_add_to_queue cfg t = (t, some "Please upload an audio file first.")) ∧
    (t.audio_file ≠ none → t.audio_filename = none →
      action_add_to_queue cfg t = (t, some "Audio filename is missing.")) ∧
    (∀ fn, t.audio_file ≠ none → t.audio_filename = some fn →
      valid_extensions.any (fun e => strEndsWith (strLower fn) e) = false →
      action_add_to_queue cfg t = (t, some invalidFormatMessage)) ∧
    (∀ e, e ∈ valid_extensions → strContains invalidFormatMessage e = true) ∧
    (validate_audio_file t = none → cfg.openai_api_key = none →
      action_add_to_queue cfg t =
        (t, some "Please configure OpenAI API key in Settings.")) ∧
    (∀ m, (action_add_to_queue cfg t).2 = some m →
      (action_add_to_queue cfg t).1 = t ∧
      (action_add_to_queue cfg t).1.state = t.state) := by
  refine ⟨fun h1 => ?_, fun h1 h2 => ?_, fun fn h1 h2 h3 => ?_, by decide,
    fun hv hk => ?_, fun m hm => ?_⟩
  · simp [action_add_to_queue, validate_audio_file, h1]
  · rcases hf : t.audio_file with _ | d
    · exact absurd hf h1
    · simp [action_add_to_queue, validate_audio_file, hf, h2]
  · rcases hf : t.audio_file with _ | d
    · exact absurd hf h1
    · simp [action_add_to_queue, validate_audio_file, hf, h2, h3]
  · simp [action_add_to_queue, hv, hk]
  · unfold action_add_to_queue at hm ⊢
    rcases hv : validate_audio_file t with _ | msg
    · rcases hk : cfg.openai_api_key with _ | k
      · simp [hv, hk]
      · simp [hv, hk] at hm
    · simp [hv]

/-- Witness for C5: each rejection branch at a concrete task. -/
theorem C5_enqueue_validation_witness :
    action_add_to_queue ⟨some "k", .immediate, 22, 6⟩
        ⟨1, .draft, none, none, none, 0, none, none, none, 0⟩ =
      (⟨1, .draft, none, none, none, 0, none, none, none, 0⟩,
        some "Please upload an audio file first.") ∧
    action_add_to_queue ⟨some "k", .immediate, 22, 6⟩
        ⟨1, .draft, some "d", none, none, 0, none, none, none, 0⟩ =
      (⟨1, .draft, some "d", none, none, 0, none, none, none, 0⟩,
        some "Audio filename is missing.") ∧
    action_add_to_queue ⟨some "k", .immediate, 22, 6⟩
        ⟨1, .draft, some "d", some "a.txt", none, 0, none, none, none, 0⟩ =
      (⟨1, .draft, some "d", some "a.txt", none, 0, none, none, none, 0⟩,
        some invalidFormatMessage) ∧
    strContains invalidFormatMessage ".flac" = true ∧
    action_add_to_queue ⟨none, .immediate, 22, 6⟩
        ⟨1, .draft, some "d", some "a.mp3", none, 0, none, none, none, 0⟩ =
      (⟨1, .draft, some "d", some "a.mp3", none, 0, none, none, none, 0⟩,
        some "Please configure OpenAI API key in Settings.") := by
  refine ⟨(C5_enqueue_validation ⟨some "k", .immediate, 22, 6⟩
      ⟨1, .draft, none, none, none, 0, none, none, none, 0⟩).1 rfl,
    (C5_enqueue_validation ⟨some "k", .immediate, 22, 6⟩
      ⟨1, .draft, some "d", none, none, 0, none, none, none, 0⟩).2.1
      (by decide) rfl,
    (C5_enqueue_validation ⟨some "k", .immediate, 22, 6⟩
      ⟨1, .draft, some "d", some "a.txt", none, 0, none, none, none, 0⟩).2.2.1
      "a.txt" (by decide) rfl (by decide),
    (C5_enqueue_validation ⟨some "k", .immediate, 22, 6⟩
      ⟨1, .draft, none, none, none, 0, none, none, none, 0⟩).2.2.2.1
      ".flac" (by decide),
    (C5_enqueue_validation ⟨none, .immediate, 22, 6⟩
      ⟨1, .draft, some "d", some "a.mp3", none, 0, none, none, none, 0⟩).2.2.2.2.1
      (by decide) rfl⟩

theorem saveAttempts_two_le (oracle : Nat → Except String Unit) :
    (saveAttempts oracle 2).attempts ≤ 1 := by
  rw [saveAttempts]
  rcases h : oracle 2 with e | u <;> simp [MAX_RETRIES, h]

theorem saveAttempts_one_le (oracle : Nat → Except String Unit) :
    (saveAttempts oracle 1).attempts ≤ 2 := by
  have h2 := saveAttempts_two_le oracle
  rw [saveAttempts]
  rcases h : oracle 1 with e | u
  · simp only [MAX_RETRIES, h]
    split_ifs <;> (simp; try omega)
  · simp [MAX_RETRIES, h]

theorem saveAttempts_zero_le (oracle : Nat → Except String Unit) :
    (saveAttempts oracle 0).attempts ≤ 3 := by
  have h1 := saveAttempts_one_le oracle
  rw [saveAttempts]
  rcases h : oracle 0 with e | u
  · simp only [MAX_RETRIES, h]
    split_ifs <;> (simp; try omega)
  · simp [MAX_RETRIES, h]

/-- C4: saving a successful outcome retries at most 3 times, only on
write-conflict ("could not serialize") errors, sleeping
`RETRY_DELAY * (attempt + 1)` between attempts; a non-conflict error or
a conflict on the final attempt propagates; `_save_error` makes exactly
one attempt. -/
theorem C4_save_retry_policy :
    (∀ oracle : Nat → Except String Unit,
      (save_transcription oracle).attempts ≤ MAX_RETRIES) ∧
    (∀ (oracle : Nat → Except String Unit) e, oracle 0 = .error e →
      strContains e serializeMarker = false →
      save_transcription oracle = ⟨[], .error e, 1⟩) ∧
    (∀ (oracle : Nat → Except String Unit) e0 e1,
      oracle 0 = .error e0 → strContains e0 serializeMarker = true →
      oracle 1 = .error e1 → strContains e1 serializeMarker = false →
      save_transcription oracle = ⟨[RETRY_DELAY_MS * 1], .error e1, 2⟩) ∧
    (∀ (oracle : Nat → Except String Unit) e0 e1,
      oracle 0 = .error e0 → strContains e0 serializeMarker = true →
      oracle 1 = .error e1 → strContains e1 serializeMarker = true →
      oracle 2 = .ok () →
      save_transcription oracle =
        ⟨[RETRY_DELAY_MS * 1, RETRY_DELAY_MS * 2], .ok (), 3⟩) ∧
    (∀ (oracle : Nat → Except String Unit) e0 e1 e2,
      oracle 0 = .error e0 → strContains e0 serializeMarker = true →
      oracle 1 = .error e1 → strContains e1 serializeMarker = true →
      oracle 2 = .error e2 →
      save_transcription oracle =
        ⟨[RETRY_DELAY_MS * 1, RETRY_DELAY_MS * 2], .error e2, 3⟩) ∧
    (∀ oracle : Nat → Except String Unit, (save_error_attempt oracle).1 = 1) := by
  refine ⟨fun oracle => saveAttempts_zero_le oracle,
    fun oracle e h0 hc => ?_, fun oracle e0 e1 h0 hc0 h1 hc1 => ?_,
    fun oracle e0 e1 h0 hc0 h1 hc1 h2 => ?_,
    fun oracle e0 e1 e2 h0 hc0 h1 hc1 h2 => ?_, fun _ => rfl⟩
  · rw [save_transcription, saveAttempts]
    simp [MAX_RETRIES, h0, hc]
  · rw [save_transcription, saveAttempts]
    simp only [MAX_RETRIES, h0, hc0]
    rw [saveAttempts]
    simp [MAX_RETRIES, h1, hc1]
  · rw [save_transcription, saveAttempts]
    simp only [MAX_RETRIES, h0, hc0]
    rw [saveAttempts]
    simp only [MAX_RETRIES, h1, hc1]
    rw [saveAttempts]
    simp [MAX_RETRIES, h2]
  · rw [save_transcription, saveAttempts]
    simp only [MAX_RETRIES, h0, hc0]
    rw [saveAttempts]
    simp only [MAX_RETRIES, h1, hc1]
    rw [saveAttempts]
    simp [MAX_RETRIES, h2]

/-- Witness for C4: a storage oracle conflicting twice then succeeding
uses 3 attempts with sleeps 500 ms and 1000 ms; an oracle failing with a
non-conflict error propagates it after one attempt. -/
theorem C4_save_retry_policy_witness :
    save_transcription
        (fun i => if i < 2 then .error "could not serialize access" else .ok ()) =
      ⟨[500, 1000], .ok (), 3⟩ ∧
    save_transcription (fun _ => .error "disk full") =
      ⟨[], .error "disk full", 1⟩ ∧
    save_transcription (fun _ => .error "could not serialize access") =
      ⟨[500, 1000], .error "could not serialize access", 3⟩ ∧
    (save_error_attempt (fun _ => .error "could not serialize access")).1 = 1 := by
  refine ⟨?_, ?_, ?_, C4_save_retry_policy.2.2.2.2.2 _⟩
  · have h := C4_save_retry_policy.2.2.2.1
      (fun i => if i < 2 then .error "could not serialize access" else .ok ())
      "could not serialize access" "could not serialize access"
      rfl (by decide) rfl (by decide) rfl
    simpa [RETRY_DELAY_MS] using h
  · exact C4_save_retry_policy.2.1 (fun _ => .error "disk full") "disk full"
      rfl (by decide)
  · have h := C4_save_retry_policy.2.2.2.2.1
      (fun _ => .error "could not serialize access")
      "could not serialize access" "could not serialize access"
      "could not serialize access" rfl (by decide) rfl (by decide) rfl
    simpa [RETRY_DELAY_MS] using h

/-- C6 counterexample: enqueue does not clear the result fields, so
re-enqueueing a Done task (which C7 shows is possible) yields a Pending
task whose result fields are still present, violating the claimed
invariant that enqueue preserves. -/
theorem C6_counterexample :
    fieldsInvariant
      ⟨7, .done, some "d", some "a.mp3", some "txt", 4, some "txt",
        some "transcription_7.txt", none, 0⟩ ∧
    (action_add_to_queue ⟨some "k", .immediate, 22, 6⟩
        ⟨7, .done, some "d", some "a.mp3", some "txt", 4, some "txt",
          some "transcription_7.txt", none, 0⟩).2 = none ∧
    (action_add_to_queue ⟨some "k", .immediate, 22, 6⟩
        ⟨7, .done, some "d", some "a.mp3", some "txt", 4, some "txt",
          some "transcription_7.txt", none, 0⟩).1.state = .pending ∧
    ¬ fieldsInvariant
        (action_add_to_queue ⟨some "k", .immediate, 22, 6⟩
          ⟨7, .done, some "d", some "a.mp3", some "txt", 4, some "txt",
            some "transcription_7.txt", none, 0⟩).1 := by
  refine ⟨by decide, by decide, by decide, ?_⟩
  intro h
  exact absurd (h.1.1 (by decide)) (by decide)

/-- C6 (amended): the field/state coupling (result fields present iff
Done, errorMessage present iff Error, both groups absent in
Draft/Pending/Transcribing) is preserved by dispatch, save-success and
save-error (applied to the task in its lifecycle state), by reset and
cancel in any state, and by enqueue applied to a non-Done task; enqueue
applied to a Done task breaks it by leaving the result fields present on
the now-Pending task. -/
theorem C6_fields_invariant (cfg : Config) (t : Task) (text msg : String)
    (elapsed : Nat) :
    (fieldsInvariant t → t.state ≠ .done →
      fieldsInvariant (action_add_to_queue cfg t).1) ∧
    (fieldsInvariant t → t.state = .pending →
      fieldsInvariant (process_transcription cfg t).1) ∧
    (fieldsInvariant t → t.state = .transcribing →
      fieldsInvariant (save_transcription_fields t text elapsed)) ∧
    (fieldsInvariant t → t.state = .transcribing →
      fieldsInvariant (save_error_fields t msg)) ∧
    fieldsInvariant (action_reset t) ∧
    (fieldsInvariant t → fieldsInvariant (action_cancel_queue t)) := by
  refine ⟨fun hi hs => ?_, fun hi hs => ?_, fun hi hs => ?_, fun hi hs => ?_,
    ?_, fun hi => ?_⟩
  · unfold action_add_to_queue
    rcases hv : validate_audio_file t with _ | m
    · rcases hk : cfg.openai_api_key with _ | k
      · exact hi
      · obtain ⟨h1, h2, h3, h4⟩ := hi
        refine ⟨?_, ?_, ?_, ?_⟩ <;> simp_all
    · exact hi
  · unfold process_transcription
    obtain ⟨h1, h2, h3, h4⟩ := hi
    rcases hk : cfg.openai_api_key with _ | k <;>
      refine ⟨?_, ?_, ?_, ?_⟩ <;> simp_all [set_error]
  · obtain ⟨h1, h2, h3, h4⟩ := hi
    refine ⟨?_, ?_, ?_, ?_⟩ <;> simp_all [save_transcription_fields]
  · obtain ⟨h1, h2, h3, h4⟩ := hi
    refine ⟨?_, ?_, ?_, ?_⟩ <;> simp_all [save_error_fields]
  · refine ⟨?_, ?_, ?_, ?_⟩ <;> simp [action_reset]
  · unfold action_cancel_queue
    obtain ⟨h1, h2, h3, h4⟩ := hi
    split_ifs with hs <;> refine ⟨?_, ?_, ?_, ?_⟩ <;> simp_all

/-- Witness for C6 (amended): the preserving operations applied at
concrete tasks in their lifecycle states. -/
theorem C6_fields_invariant_witness :
    fieldsInvariant (action_add_to_queue ⟨some "k", .immediate, 22, 6⟩
      ⟨1, .draft, some "d", some "a.mp3", none, 0, none, none, none, 0⟩).1 ∧
    fieldsInvariant (process_transcription ⟨some "k", .immediate, 22, 6⟩
      ⟨1, .pending, some "d", some "a.mp3", none, 0, none, none, none, 0⟩).1 ∧
    fieldsInvariant (save_transcription_fields
      ⟨1, .transcribing, some "d", some "a.mp3", none, 0, none, none, none, 0⟩
      "txt" 4) ∧
    fieldsInvariant (save_error_fields
      ⟨1, .transcribing, some "d", some "a.mp3", none, 0, none, none, none, 0⟩
      "boom") ∧
    fieldsInvariant (action_reset
      ⟨7, .done, some "d", some "a.mp3", some "txt", 4, some "txt",
        some "transcription_7.txt", none, 0⟩) ∧
    fieldsInvariant (action_cancel_queue
      ⟨1, .pending, some "d", some "a.mp3", none, 0, none, none, none, 0⟩) := by
  have h1 := C6_fields_invariant ⟨some "k", .immediate, 22, 6⟩
    ⟨1, .draft, some "d", some "a.mp3", none, 0, none, none, none, 0⟩ "txt" "boom" 4
  have h2 := C6_fields_invariant ⟨some "k", .immediate, 22, 6⟩
    ⟨1, .pending, some "d", some "a.mp3", none, 0, none, none, none, 0⟩ "txt" "boom" 4
  have h3 := C6_fields_invariant ⟨some "k", .immediate, 22, 6⟩
    ⟨1, .transcribing, some "d", some "a.mp3", none, 0, none, none, none, 0⟩
    "txt" "boom" 4
  have h7 := C6_fields_invariant ⟨some "k", .immediate, 22, 6⟩
    ⟨7, .done, some "d", some "a.mp3", some "txt", 4, some "txt",
      some "transcription_7.txt", none, 0⟩ "txt" "boom" 4
  exact ⟨h1.1 (by decide) (by decide), h2.2.1 (by decide) rfl,
    h3.2.2.1 (by decide) rfl, h3.2.2.2.1 (by decide) rfl,
    h7.2.2.2.2.1, h2.2.2.2.2.2 (by decide)⟩

theorem process_transcription_id (cfg : Config) (u : Task) :
    (process_transcription cfg u).1.id = u.id := by
  unfold process_transcription
  rcases cfg.openai_api_key with _ | k <;> rfl

theorem cron_noop_of_active (cfg : Config) (hour : Nat) (store : List Task)
    (h : has_active_transcription store = true) :
    cron_process_queue cfg hour store = store := by
  unfold cron_process_queue
  split_ifs <;> simp_all

theorem cron_map_id (cfg : Config) (hour : Nat) (store : List Task) :
    (cron_process_queue cfg hour store).map Task.id = store.map Task.id := by
  unfold cron_process_queue
  rcases h : selectNextPending store with _ | t
  all_goals split_ifs
  all_goals try simp only [h]
  rw [List.map_map]
  refine List.map_congr_left (fun u _ => ?_)
  simp only [Function.comp]
  split_ifs
  · exact process_transcription_id cfg u
  · rfl

theorem map_update_of_not_mem (us : List Task) (i : Nat) (g : Task → Task)
    (h : ∀ v ∈ us, ¬ v.id = i) :
    us.map (fun u => if u.id = i then g u else u) = us := by
  induction us with
  | nil => rfl
  | cons u us ih =>
    simp only [List.map_cons, List.cons.injEq]
    refine ⟨?_, ih (fun v hv => h v (List.mem_cons_of_mem u hv))⟩
    rw [if_neg (h u (List.mem_cons_self u us))]

theorem countTranscribing_map_update (store : List Task) (i : Nat)
    (g : Task → Task) (hnd : (store.map Task.id).Nodup) :
    countTranscribing (store.map (fun u => if u.id = i then g u else u)) ≤
      countTranscribing store + 1 := by
  induction store with
  | nil => simp [countTranscribing]
  | cons u us ih =>
    simp only [List.map_cons, List.nodup_cons, List.mem_map] at hnd
    obtain ⟨hu, hus⟩ := hnd
    simp only [countTranscribing, List.map_cons, List.countP_cons] at *
    by_cases hui : u.id = i
    · rw [map_update_of_not_mem us i g
        (fun v hv hvi => hu ⟨v, hv, by rw [hvi, hui]⟩)]
      split_ifs <;> omega
    · rw [if_neg hui]
      have := ih hus
      split_ifs <;> omega

theorem countTranscribing_zero_iff (store : List Task) :
    has_active_transcription store = false ↔ countTranscribing store = 0 := by
  simp [has_active_transcription, countTranscribing, List.countP_eq_zero,
    List.any_eq_false]

theorem cron_count_le (cfg : Config) (hour : Nat) (store : List Task)
    (hnd : (store.map Task.id).Nodup) (h1 : countTranscribing store ≤ 1) :
    countTranscribing (cron_process_queue cfg hour store) ≤ 1 := by
  rcases ha : has_active_transcription store with _ | _
  · have h0 := (countTranscribing_zero_iff store).mp ha
    have hm := countTranscribing_map_update store
    unfold cron_process_queue
    rcases hs : selectNextPending store with _ | t
    all_goals split_ifs
    all_goals try simp only [hs]
    all_goals try omega
    have hb := hm t.id (fun u => (process_transcription cfg u).1) hnd
    simp only [] at hb
    omega
  · rw [cron_noop_of_active cfg hour store ha]
    exact h1

theorem cron_iterate_invariant (cfg : Config) (hour : Nat) (n : Nat) :
    ∀ store : List Task, (store.map Task.id).Nodup → countTranscribing store ≤ 1 →
      (((cron_process_queue cfg hour)^[n] store).map Task.id).Nodup ∧
      countTranscribing ((cron_process_queue cfg hour)^[n] store) ≤ 1 := by
  induction n with
  | zero => exact fun store hnd h1 => ⟨hnd, h1⟩
  | succ n ih =>
    intro store hnd h1
    rw [Function.iterate_succ_apply]
    exact ih _ (by rw [cron_map_id]; exact hnd) (cron_count_le cfg hour store hnd h1)

/-- C1: a dispatch cycle is a no-op whenever some task is already
Transcribing, and iterated dispatch cycles keep the number of
Transcribing tasks at most one (single-flight invariant), over any store
with distinct task ids. -/
theorem C1_single_flight (cfg : Config) (hour : Nat) (store : List Task)
    (n : Nat) (hnd : (store.map Task.id).Nodup) :
    (has_active_transcription store = true →
      cron_process_queue cfg hour store = store) ∧
    (countTranscribing store ≤ 1 →
      countTranscribing ((cron_process_queue cfg hour)^[n] store) ≤ 1) :=
  ⟨cron_noop_of_active cfg hour store,
   fun h1 => (cron_iterate_invariant cfg hour n store hnd h1).2⟩

/-- Witness for C1: with one task already transcribing and one pending,
a cycle changes nothing; from a single-transcribing store four cycles
keep the transcribing count at one or below. -/
theorem C1_single_flight_witness :
    cron_process_queue ⟨some "k", .immediate, 22, 6⟩ 10
        [⟨1, .transcribing, some "d", some "a.mp3", none, 0, none, none, none, 0⟩,
         ⟨2, .pending, some "d", some "b.mp3", none, 0, none, none, none, 1⟩] =
      [⟨1, .transcribing, some "d", some "a.mp3", none, 0, none, none, none, 0⟩,
       ⟨2, .pending, some "d", some "b.mp3", none, 0, none, none, none, 1⟩] ∧
    countTranscribing ((cron_process_queue ⟨some "k", .immediate, 22, 6⟩ 10)^[4]
        [⟨1, .transcribing, some "d", some "a.mp3", none, 0, none, none, none, 0⟩,
         ⟨2, .pending, some "d", some "b.mp3", none, 0, none, none, none, 1⟩]) ≤ 1 := by
  have h := C1_single_flight ⟨some "k", .immediate, 22, 6⟩ 10
    [⟨1, .transcribing, some "d", some "a.mp3", none, 0, none, none, none, 0⟩,
     ⟨2, .pending, some "d", some "b.mp3", none, 0, none, none, none, 1⟩]
    4 (by decide)
  exact ⟨h.1 (by decide), h.2 (by decide)⟩

theorem keyLt_iff (a b : Task) :
    keyLt a b = true ↔
      a.create_date < b.create_date ∨
        (a.create_date = b.create_date ∧ a.id < b.id) := by
  simp [keyLt]

theorem keyLt_false_of (a b c : Task) (hab : keyLt a b = false)
    (hbc : keyLt b c = false) : keyLt a c = false := by
  rw [← Bool.not_eq_true, keyLt_iff] at *
  omega

theorem keyLt_both_false (a b : Task) (hab : keyLt a b = false)
    (hba : keyLt b a = false) :
    a.create_date = b.create_date ∧ a.id = b.id := by
  rw [← Bool.not_eq_true, keyLt_iff] at *
  omega

theorem pickEarliest_eq_none (l : List Task) :
    pickEarliest l = none ↔ l = [] := by
  cases l with
  | nil => simp [pickEarliest]
  | cons t ts =>
    simp only [pickEarliest]
    rcases pickEarliest ts with _ | m <;> simp
    split_ifs <;> simp

theorem pickEarliest_mem : ∀ (l : List Task) (m : Task),
    pickEarliest l = some m → m ∈ l := by
  intro l
  induction l with
  | nil => intro m h; simp [pickEarliest] at h
  | cons t ts ih =>
    intro m h
    simp only [pickEarliest] at h
    rcases hp : pickEarliest ts with _ | m'
    · simp only [hp, Option.some.injEq] at h
      exact h ▸ List.mem_cons_self t ts
    · simp only [hp] at h
      split_ifs at h with hlt <;> simp only [Option.some.injEq] at h
      · exact List.mem_cons_of_mem t (h ▸ ih m' hp)
      · exact h ▸ List.mem_cons_self t ts

theorem pickEarliest_min : ∀ (l : List Task) (m : Task),
    pickEarliest l = some m → ∀ x ∈ l, keyLt x m = false := by
  intro l
  induction l with
  | nil => intro m h; simp [pickEarliest] at h
  | cons t ts ih =>
    intro m h x hx
    simp only [pickEarliest] at h
    rcases hp : pickEarliest ts with _ | m'
    · have hts : ts = [] := (pickEarliest_eq_none ts).mp hp
      simp only [hp, Option.some.injEq] at h
      subst h
      subst hts
      rcases List.mem_cons.mp hx with rfl | hx'
      · rw [← Bool.not_eq_true, keyLt_iff]
        omega
      · simp at hx'
    · simp only [hp] at h
      split_ifs at h with hlt <;> simp only [Option.some.injEq] at h <;> subst h
      · rcases List.mem_cons.mp hx with rfl | hx'
        · rw [← Bool.not_eq_true, keyLt_iff]
          rw [keyLt_iff] at hlt
          omega
        · exact ih m' hp x hx'
      · rcases List.mem_cons.mp hx with rfl | hx'
        · rw [← Bool.not_eq_true, keyLt_iff]
          omega
        · exact keyLt_false_of x m' t (ih m' hp x hx') (Bool.eq_false_iff.mpr hlt)

theorem has_active_iff (store : List Task) :
    has_active_transcription store = false ↔
      ∀ v ∈ store, v.state ≠ TaskState.transcribing := by
  simp [has_active_transcription, List.any_eq_false]

theorem round_eq (cfg : Config) (hour : Nat) (store : List Task) (t : Task)
    (k : String) (hw : is_processing_allowed cfg hour = true)
    (hk : cfg.openai_api_key = some k)
    (ha : has_active_transcription store = false)
    (hs : selectNextPending store = some t) :
    round cfg hour store =
      store.map (fun u => if u.id = t.id then { u with state := .done } else u) := by
  unfold round cron_process_queue
  simp only [hw, ha, hs]
  unfold completeAll
  rw [if_neg (fun h => h trivial), if_neg Bool.false_ne_true, List.map_map]
  refine List.map_congr_left (fun u hu => ?_)
  simp only [Function.comp]
  by_cases hui : u.id = t.id
  · simp [hui, process_transcription, hk]
  · have hnt := (has_active_iff store).mp ha u hu
    simp [hui, hnt]

theorem pendingList_map_done (store : List Task) (t : Task) :
    pendingList
        (store.map (fun u => if u.id = t.id then { u with state := .done } else u)) =
      (pendingList store).filter (fun u => ¬ u.id = t.id) := by
  simp only [pendingList, List.filter_filter]
  induction store with
  | nil => rfl
  | cons u us ih =>
    simp only [List.map_cons, List.filter_cons]
    by_cases hui : u.id = t.id <;> by_cases hup : u.state = TaskState.pending <;>
      simp [hui, hup, ih]

theorem perm_cons_filter : ∀ (P : List Task) (t : Task),
    (P.map Task.id).Nodup → t ∈ P →
    P.Perm (t :: P.filter (fun u => ¬ u.id = t.id)) := by
  intro P
  induction P with
  | nil => simp
  | cons p ps ih =>
    intro t hnd ht
    simp only [List.map_cons, List.nodup_cons, List.mem_map] at hnd
    obtain ⟨hp1, hp2⟩ := hnd
    rcases List.mem_cons.mp ht with rfl | hts
    · have hfil : ps.filter (fun u => ¬ u.id = t.id) = ps := by
        rw [List.filter_eq_self]
        intro a ha
        simpa using fun he => hp1 ⟨a, ha, he⟩
      rw [List.filter_cons, if_neg (by simp), hfil]
    · have hpt : ¬ p.id = t.id := fun he => hp1 ⟨t, hts, he.symm⟩
      rw [List.filter_cons, if_pos (by simpa using hpt)]
      refine List.Perm.trans ((ih t hp2 hts).cons p) ?_
      exact List.Perm.swap t p _

theorem map_done_ids (store : List Task) (t : Task) :
    ((store.map (fun u => if u.id = t.id then { u with state := TaskState.done } else u)).map
        Task.id) = store.map Task.id := by
  rw [List.map_map]
  refine List.map_congr_left (fun u _ => ?_)
  simp only [Function.comp]
  split_ifs <;> rfl

theorem map_done_no_active (store : List Task) (t : Task)
    (ha : has_active_transcription store = false) :
    has_active_transcription
        (store.map (fun u => if u.id = t.id then { u with state := TaskState.done } else u)) =
      false := by
  rw [has_active_iff] at *
  intro v hv
  obtain ⟨u, hu, rfl⟩ := List.mem_map.mp hv
  split_ifs
  · simp
  · exact ha u hu

theorem startedNow_eq (cfg : Config) (hour : Nat) (store : List Task)
    (k : String) (hw : is_processing_allowed cfg hour = true)
    (hk : cfg.openai_api_key = some k)
    (ha : has_active_transcription store = false) :
    startedNow cfg hour store = selectNextPending store := by
  simp [startedNow, hw, ha, hk]

theorem dispatchSeq_fifo (cfg : Config) (hour : Nat) (k : String)
    (hw : is_processing_allowed cfg hour = true)
    (hk : cfg.openai_api_key = some k) :
    ∀ (n : Nat) (store : List Task), n = (pendingList store).length →
      (store.map Task.id).Nodup → has_active_transcription store = false →
      (dispatchSeq cfg hour n store).Perm (pendingList store) ∧
      (dispatchSeq cfg hour n store).Pairwise (fun a b => keyLt a b = true) := by
  intro n
  induction n with
  | zero =>
    intro store hlen _ _
    have h0 : pendingList store = [] := List.length_eq_zero.mp hlen.symm
    rw [dispatchSeq, h0]
    exact ⟨List.Perm.refl [], List.Pairwise.nil⟩
  | succ n ih =>
    intro store hlen hnd ha
    have hne : pendingList store ≠ [] := by
      intro h0
      rw [h0] at hlen
      simp at hlen
    obtain ⟨t, hs⟩ : ∃ t, selectNextPending store = some t := by
      rcases h : selectNextPending store with _ | t
      · exact absurd ((pickEarliest_eq_none _).mp h) hne
      · exact ⟨t, rfl⟩
    have hstart : startedNow cfg hour store = some t := by
      rw [startedNow_eq cfg hour store k hw hk ha, hs]
    have hround := round_eq cfg hour store t k hw hk ha hs
    have hmem : t ∈ pendingList store := pickEarliest_mem _ t hs
    have hpnd : ((pendingList store).map Task.id).Nodup :=
      List.Nodup.sublist (List.Sublist.map Task.id (List.filter_sublist store)) hnd
    have hperm := perm_cons_filter (pendingList store) t hpnd hmem
    have hplen : ((pendingList store).filter (fun u => ¬ u.id = t.id)).length = n := by
      have h1 := hperm.length_eq
      simp only [List.length_cons] at h1
      omega
    have hRnd : ((round cfg hour store).map Task.id).Nodup := by
      rw [hround, map_done_ids]
      exact hnd
    have hRa : has_active_transcription (round cfg hour store) = false := by
      rw [hround]
      exact map_done_no_active store t ha
    have hRpl : pendingList (round cfg hour store) =
        (pendingList store).filter (fun u => ¬ u.id = t.id) := by
      rw [hround, pendingList_map_done]
    have hRlen : n = (pendingList (round cfg hour store)).length := by
      rw [hRpl, hplen]
    obtain ⟨ihp, ihpw⟩ := ih (round cfg hour store) hRlen hRnd hRa
    rw [dispatchSeq, hstart]
    constructor
    · exact ((hRpl ▸ ihp).cons t).trans hperm.symm
    · refine List.Pairwise.cons ?_ ihpw
      intro x hx
      have hxfil : x ∈ (pendingList store).filter (fun u => ¬ u.id = t.id) :=
        (hRpl ▸ ihp.subset) hx
      have hxP : x ∈ pendingList store := List.mem_of_mem_filter hxfil
      have hxid : ¬ x.id = t.id := by simpa using List.of_mem_filter hxfil
      have hxt : keyLt x t = false := pickEarliest_min _ t hs x hxP
      rcases hb : keyLt t x with _ | _
      · exact absurd (keyLt_both_false t x hb hxt).2.symm hxid
      · rfl

/-- C3: when the window allows and nothing is transcribing, a dispatch
cycle selects exactly the pending task minimal for (createdAt, id); a
cycle with no pending task leaves the store unchanged; and serialized
cycle-then-complete rounds start all pending tasks exactly once, in
strictly increasing (createdAt, id) order (FIFO). -/
theorem C3_fifo_selection (cfg : Config) (hour : Nat) (store : List Task) :
    (∀ t, selectNextPending store = some t →
      t ∈ pendingList store ∧ ∀ p ∈ pendingList store, keyLt p t = false) ∧
    (pendingList store = [] → cron_process_queue cfg hour store = store) ∧
    (∀ k, cfg.openai_api_key = some k → is_processing_allowed cfg hour = true →
      (store.map Task.id).Nodup → has_active_transcription store = false →
      (dispatchSeq cfg hour (pendingList store).length store).Perm
          (pendingList store) ∧
      (dispatchSeq cfg hour (pendingList store).length store).Pairwise
        (fun a b => keyLt a b = true)) := by
  refine ⟨fun t hs => ⟨pickEarliest_mem _ t hs, pickEarliest_min _ t hs⟩,
    fun hp0 => ?_,
    fun k hk hw hnd ha => dispatchSeq_fifo cfg hour k hw hk _ store rfl hnd ha⟩
  have hsel : selectNextPending store = none := by
    unfold selectNextPending
    rw [hp0]
    rfl
  unfold cron_process_queue
  split_ifs <;> simp [hsel]

/-- Witness for C3: a three-task queue with creation times out of store
order is selected minimal-first, started in creation order, and an
empty queue leaves the store untouched. -/
theorem C3_fifo_selection_witness :
    (⟨2, .pending, some "d", some "b.mp3", none, 0, none, none, none, 10⟩ : Task) ∈
      pendingList
        [⟨1, .pending, some "d", some "a.mp3", none, 0, none, none, none, 30⟩,
         ⟨2, .pending, some "d", some "b.mp3", none, 0, none, none, none, 10⟩,
         ⟨3, .pending, some "d", some "c.mp3", none, 0, none, none, none, 20⟩] ∧
    keyLt ⟨1, .pending, some "d", some "a.mp3", none, 0, none, none, none, 30⟩
      ⟨2, .pending, some "d", some "b.mp3", none, 0, none, none, none, 10⟩ = false ∧
    cron_process_queue ⟨some "k", .immediate, 22, 6⟩ 10
        [⟨9, .done, some "d", some "a.mp3", some "txt", 1, some "txt",
          some "transcription_9.txt", none, 0⟩] =
      [⟨9, .done, some "d", some "a.mp3", some "txt", 1, some "txt",
        some "transcription_9.txt", none, 0⟩] ∧
    (dispatchSeq ⟨some "k", .immediate, 22, 6⟩ 10
        (pendingList
          [⟨1, .pending, some "d", some "a.mp3", none, 0, none, none, none, 30⟩,
           ⟨2, .pending, some "d", some "b.mp3", none, 0, none, none, none, 10⟩,
           ⟨3, .pending, some "d", some "c.mp3", none, 0, none, none, none, 20⟩]).length
        [⟨1, .pending, some "d", some "a.mp3", none, 0, none, none, none, 30⟩,
         ⟨2, .pending, some "d", some "b.mp3", none, 0, none, none, none, 10⟩,
         ⟨3, .pending, some "d", some "c.mp3", none, 0, none, none, none, 20⟩]).Perm
      (pendingList
        [⟨1, .pending, some "d", some "a.mp3", none, 0, none, none, none, 30⟩,
         ⟨2, .pending, some "d", some "b.mp3", none, 0, none, none, none, 10⟩,
         ⟨3, .pending, some "d", some "c.mp3", none, 0, none, none, none, 20⟩]) ∧
    (dispatchSeq ⟨some "k", .immediate, 22, 6⟩ 10
        (pendingList
          [⟨1, .pending, some "d", some "a.mp3", none, 0, none, none, none, 30⟩,
           ⟨2, .pending, some "d", some "b.mp3", none, 0, none, none, none, 10⟩,
           ⟨3, .pending, some "d", some "c.mp3", none, 0, none, none, none, 20⟩]).length
        [⟨1, .pending, some "d", some "a.mp3", none, 0, none, none, none, 30⟩,
         ⟨2, .pending, some "d", some "b.mp3", none, 0, none, none, none, 10⟩,
         ⟨3, .pending, some "d", some "c.mp3", none, 0, none, none, none, 20⟩]).Pairwise
      (fun a b => keyLt a b = true) := by
  have hsel := C3_fifo_selection ⟨some "k", .immediate, 22, 6⟩ 10
    [⟨1, .pending, some "d", some "a.mp3", none, 0, none, none, none, 30⟩,
     ⟨2, .pending, some "d", some "b.mp3", none, 0, none, none, none, 10⟩,
     ⟨3, .pending, some "d", some "c.mp3", none, 0, none, none, none, 20⟩]
  have hempty := C3_fifo_selection ⟨some "k", .immediate, 22, 6⟩ 10
    [⟨9, .done, some "d", some "a.mp3", some "txt", 1, some "txt",
      some "transcription_9.txt", none, 0⟩]
  have h1 := hsel.1 ⟨2, .pending, some "d", some "b.mp3", none, 0, none, none, none, 10⟩
    (by decide)
  have h3 := hsel.2.2 "k" rfl rfl (by decide) (by decide)
  exact ⟨h1.1,
    h1.2 ⟨1, .pending, some "d", some "a.mp3", none, 0, none, none, none, 30⟩
      (by decide),
    hempty.2.1 (by decide), h3.1, h3.2⟩

end AudioAI
